import Mathlib

/-!
Shallow embedding of `fix-path-env-rs` (`src/lib.rs`): the shell-environment
extraction and merge pipeline `fix_vars`, plus the entry points `fix` and
`fix_all_vars`.

The embedding works over decoded text (`String` / `List Char`): the lossy
UTF-8 decoding of the captured bytes (lib.rs line 52) happens before the
parts modelled here. The process environment is a finite-support map
`String → Option String`; the OS process-spawn boundary is an oracle input
(an `Except` value standing for `cmd.output()`), and the compile-time
platform flags (`cfg(windows)`, `cfg(target_os = "macos")`) are Boolean
parameters.
-/

deriving instance DecidableEq for Except

namespace FixPathEnv

/-- The error type of lib.rs lines 6-14.  `Shell` carries the OS launch
error (modelled as its message text), `InvalidOutput` the full decoded
stdout, `EchoFailed` the decoded stderr. -/
inductive Error where
  | Shell (e : String)
  | InvalidOutput (s : String)
  | EchoFailed (s : String)
deriving DecidableEq, Repr

/-- Outcome of `cmd.output()` when the process could be launched:
exit-status success flag and the decoded stdout/stderr texts. -/
structure CaptureResult where
  success : Bool
  stdout : String
  stderr : String
deriving DecidableEq, Repr

/-- The process environment table: total over names, `none` = unset. -/
abbrev Env : Type := String → Option String

/-- `std::env::set_var` (lib.rs line 64): overwrite the entry for `k`. -/
def setVar (k v : String) (env : Env) : Env :=
  fun q => if q = k then some v else env q

/-- The delimiter token of lib.rs line 41, as a character list. -/
def DELIM : List Char := "_SHELL_ENV_DELIMITER_".data

/-- `pat` is a prefix of `s` (character-wise). -/
def startsWith : List Char → List Char → Bool
  | [], _ => true
  | _ :: _, [] => false
  | p :: ps, c :: cs => p = c && startsWith ps cs

/-- Split `s` at the first (leftmost) occurrence of `DELIM`:
`some (before, after)` with the matched token removed, or `none` when the
token does not occur.  Together with a second call on `after`, this gives
exactly Rust's `s.split("_SHELL_ENV_DELIMITER_").nth(1)` (lib.rs 53-55). -/
def breakOnDelim : List Char → Option (List Char × List Char)
  | [] => none
  | c :: rest =>
    if startsWith DELIM (c :: rest) then
      some ([], (c :: rest).drop DELIM.length)
    else
      (breakOnDelim rest).map (fun p => (c :: p.1, p.2))

/-- `stdout.split("_SHELL_ENV_DELIMITER_").nth(1)` (lib.rs 53-55): the
second piece of the split, i.e. the text between the first and second
occurrence of the token, or — when the token occurs exactly once — all the
text after that single occurrence. -/
def extractFrame (s : List Char) : Option (List Char) :=
  (breakOnDelim s).map (fun p =>
    match breakOnDelim p.2 with
    | some q => q.1
    | none => p.2)

/-- State machine modelled from the spec: the `strip_ansi_escapes::strip`
call of lib.rs line 57 (the crate's source is an external dependency, not
in this repository).  Removes ESC-initiated terminal escape sequences:
after `ESC [` characters are dropped up to and including a final byte in
`0x40..0x7E`; after a bare `ESC` one character is dropped. -/
inductive AnsiState where
  | normal
  | escape
  | csi

/-- Character-by-character ANSI stripping (see `AnsiState`). -/
def stripAnsiAux : AnsiState → List Char → List Char
  | _, [] => []
  | .normal, c :: rest =>
    if c = '\x1b' then stripAnsiAux .escape rest else c :: stripAnsiAux .normal rest
  | .escape, c :: rest =>
    if c = '[' then stripAnsiAux .csi rest else stripAnsiAux .normal rest
  | .csi, c :: rest =>
    if 0x40 ≤ c.toNat ∧ c.toNat ≤ 0x7e then stripAnsiAux .normal rest
    else stripAnsiAux .csi rest

/-- Strip ANSI escape sequences from the frame (lib.rs line 57). -/
def stripAnsi (s : List Char) : List Char :=
  stripAnsiAux .normal s

/-- Rust `split('\n')` (lib.rs line 58): split into lines at every
newline character; no occurrence yields the whole input as one piece. -/
def linesOf : List Char → List (List Char)
  | [] => [[]]
  | c :: rest =>
    if c = '\n' then [] :: linesOf rest
    else
      match linesOf rest with
      | [] => [[c]]
      | l :: ls => (c :: l) :: ls

/-- Rust `line.splitn(2, '=')` when both pieces exist (lib.rs 61-62):
split at the first `=`, returning `(key, value)`; `none` when the line has
no `=` (then `s.next()` yields only one piece and the line is skipped). -/
def splitFirstEq : List Char → Option (List Char × List Char)
  | [] => none
  | c :: rest =>
    if c = '=' then some ([], rest)
    else (splitFirstEq rest).map (fun p => (c :: p.1, p.2))

/-- Parse one line of the frame into an `(key, value)` record, lib.rs
lines 61-62. -/
def parseLine (l : List Char) : Option (String × String) :=
  (splitFirstEq l).map (fun p => (String.mk p.1, String.mk p.2))

/-- Record extraction from the line list of the cleaned frame: drop empty
lines (lib.rs 59), parse the rest, keep line order (lib.rs 57-62). -/
def recordsOfLines (ls : List (List Char)) : List (String × String) :=
  (ls.filter (fun l => !l.isEmpty)).filterMap parseLine

/-- The Frame Parser applied to the frame between the delimiters:
strip ANSI sequences, split into lines, extract records (lib.rs 57-62). -/
def parseFrame (frame : List Char) : List (String × String) :=
  recordsOfLines (linesOf (stripAnsi frame))

/-- `vars.is_empty() || vars.contains(&var)` (lib.rs line 63). -/
def shouldApply (vars : List String) (k : String) : Bool :=
  vars.isEmpty || vars.contains k

/-- One iteration of the merge loop body (lib.rs 63-65): set the variable
when the allow-list is empty or names the record's key. -/
def applyRecord (vars : List String) (env : Env) (r : String × String) : Env :=
  if shouldApply vars r.1 then setVar r.1 r.2 env else env

/-- The Filter & Merge stage (lib.rs 57-67): fold the record sequence over
the environment in line order. -/
def applyRecords (vars : List String) (recs : List (String × String)) (env : Env) : Env :=
  recs.foldl (applyRecord vars) env

/-- Result of one `fix_vars` run: the returned `Result`, the final process
environment, and the observable effects at the two external seams (was the
`SHELL` variable read, was a child process spawned). -/
structure Outcome where
  result : Except Error Unit
  env : Env
  readShell : Bool
  spawned : Bool

/-- `fix_vars` (lib.rs 21-75).  `windows` / `macos` are the compile-time
platform flags; `spawn` is the oracle for `cmd.output()` (lib.rs 49):
`Except.error` is an OS launch failure, `Except.ok` a completed run.
On Windows (lib.rs 22-27) the call returns `Ok` immediately.  Otherwise the
shell is `SHELL` from the environment or the platform default (lib.rs
30-35) — command construction and the home-directory working directory
(lib.rs 37-47) have no effect on the observable outcome modelled here —
and the capture result is checked and parsed (lib.rs 49-74). -/
def fix_vars (windows macos : Bool) (vars : List String)
    (spawn : Except String CaptureResult) (env : Env) : Outcome :=
  if windows then
    { result := .ok (), env := env, readShell := false, spawned := false }
  else
    let dflt : String := if macos then "/bin/zsh" else "/bin/sh"
    let _shell : String := (env "SHELL").getD dflt
    match spawn with
    | .error e => { result := .error (.Shell e), env := env, readShell := true, spawned := true }
    | .ok out =>
      if out.success then
        match extractFrame out.stdout.data with
        | none =>
          { result := .error (.InvalidOutput out.stdout), env := env
            readShell := true, spawned := true }
        | some frame =>
          { result := .ok (), env := applyRecords vars (parseFrame frame) env
            readShell := true, spawned := true }
      else
        { result := .error (.EchoFailed out.stderr), env := env
          readShell := true, spawned := true }

/-- `fix` (lib.rs 82-84): fix `PATH` only. -/
def fix (windows macos : Bool) (spawn : Except String CaptureResult) (env : Env) : Outcome :=
  fix_vars windows macos ["PATH"] spawn env

/-- `fix_all_vars` (lib.rs 91-93): empty allow-list, import everything. -/
def fix_all_vars (windows macos : Bool) (spawn : Except String CaptureResult) (env : Env) : Outcome :=
  fix_vars windows macos [] spawn env

/-- The value the merge loop leaves at key `k`: the value of the last
record in `recs` that is applied (allow-list check passes) and has key
`k`, or `none` when no such record exists. -/
def lastVal (vars : List String) : List (String × String) → String → Option String
  | [], _ => none
  | r :: rs, k =>
    match lastVal vars rs k with
    | some v => some v
    | none => if shouldApply vars r.1 = true ∧ k = r.1 then some r.2 else none

theorem applyRecords_apply (vars : List String) (recs : List (String × String))
    (env : Env) (k : String) :
    applyRecords vars recs env k =
      match lastVal vars recs k with
      | some v => some v
      | none => env k := by
  induction recs generalizing env with
  | nil => rfl
  | cons r rs ih =>
    show applyRecords vars rs (applyRecord vars env r) k = _
    rw [ih]
    cases h : lastVal vars rs k with
    | some v => simp [lastVal, h]
    | none =>
      simp only [lastVal, h]
      unfold applyRecord setVar
      by_cases hs : shouldApply vars r.1 = true
      · by_cases hk : k = r.1 <;> simp [hs, hk]
      · simp [hs]

theorem lastVal_isSome_shouldApply (vars : List String) (recs : List (String × String))
    (k : String) (h : (lastVal vars recs k).isSome = true) : shouldApply vars k = true := by
  induction recs with
  | nil => simp [lastVal] at h
  | cons r rs ih =>
    by_cases hr : (lastVal vars rs k).isSome = true
    · exact ih hr
    · have hnone : lastVal vars rs k = none := by
        cases hc : lastVal vars rs k with
        | none => rfl
        | some v => exact absurd (by rw [hc]; rfl) hr
      simp only [lastVal, hnone] at h
      by_cases hp : shouldApply vars r.1 = true ∧ k = r.1
      · exact hp.2 ▸ hp.1
      · simp [hp] at h

theorem shouldApply_iff (vars : List String) (k : String) :
    shouldApply vars k = true ↔ vars = [] ∨ k ∈ vars := by
  simp [shouldApply, List.isEmpty_iff]

theorem applyRecords_ne_imp (vars : List String) (recs : List (String × String))
    (env : Env) (k : String) (h : applyRecords vars recs env k ≠ env k) :
    vars = [] ∨ k ∈ vars := by
  rw [applyRecords_apply] at h
  cases hl : lastVal vars recs k with
  | none => rw [hl] at h; exact absurd rfl h
  | some v =>
    exact (shouldApply_iff vars k).mp
      (lastVal_isSome_shouldApply vars recs k (by rw [hl]; rfl))

theorem splitFirstEq_eq_none (l : List Char) (h : '=' ∉ l) : splitFirstEq l = none := by
  induction l with
  | nil => rfl
  | cons c cs ih =>
    have hc : ¬ c = '=' := fun hc => h (hc ▸ List.mem_cons_self c cs)
    have hcs : '=' ∉ cs := fun hm => h (List.mem_cons_of_mem c hm)
    simp [splitFirstEq, hc, ih hcs]

/-- C1 counterexample: on a raw stdout containing the delimiter token
exactly once (`"noise_SHELL_ENV_DELIMITER_foo=bar"`), the pipeline does
NOT fail with Invalid-Output as the claim states: `split(...).nth(1)`
yields the text after the single occurrence, the run returns `Ok` and even
applies the record `foo=bar`. -/
theorem single_delim_not_invalid :
    (fix_vars false false [] (.ok ⟨true, "noise_SHELL_ENV_DELIMITER_foo=bar", ""⟩)
        (fun _ => none)).result = .ok ()
    ∧ (fix_vars false false [] (.ok ⟨true, "noise_SHELL_ENV_DELIMITER_foo=bar", ""⟩)
        (fun _ => none)).result
        ≠ .error (.InvalidOutput "noise_SHELL_ENV_DELIMITER_foo=bar")
    ∧ (fix_vars false false [] (.ok ⟨true, "noise_SHELL_ENV_DELIMITER_foo=bar", ""⟩)
        (fun _ => none)).env "foo" = some "bar" := by
  refine ⟨by decide, by decide, by decide⟩

/-- C1 (amended): Invalid-Output is raised only when the delimiter token
is entirely absent from the raw stdout; when it occurs exactly once the
run succeeds, with everything after that single occurrence taken as the
frame and merged. -/
theorem fix_vars_single_delim_succeeds (macos : Bool) (vars : List String)
    (so se : String) (env : Env) (pre rest : List Char)
    (h1 : breakOnDelim so.data = some (pre, rest))
    (h2 : breakOnDelim rest = none) :
    (fix_vars false macos vars (.ok ⟨true, so, se⟩) env).result = .ok ()
    ∧ (fix_vars false macos vars (.ok ⟨true, so, se⟩) env).env
        = applyRecords vars (parseFrame rest) env := by
  have hf : extractFrame so.data = some rest := by
    rw [extractFrame, h1]
    simp [h2]
  constructor <;> simp [fix_vars, hf]

/-- Witness for `fix_vars_single_delim_succeeds` at the concrete stdout
`"a_SHELL_ENV_DELIMITER_b"`. -/
theorem fix_vars_single_delim_succeeds_witness :
    (breakOnDelim ("a_SHELL_ENV_DELIMITER_b").data = some ("a".data, "b".data)
      ∧ breakOnDelim ("b").data = none)
    ∧ ((fix_vars false false [] (.ok ⟨true, "a_SHELL_ENV_DELIMITER_b", ""⟩)
          (fun _ => none)).result = .ok ()
      ∧ (fix_vars false false [] (.ok ⟨true, "a_SHELL_ENV_DELIMITER_b", ""⟩)
          (fun _ => none)).env
          = applyRecords [] (parseFrame ("b").data) (fun _ => none)) :=
  ⟨⟨by decide, by decide⟩,
    fix_vars_single_delim_succeeds false [] "a_SHELL_ENV_DELIMITER_b" ""
      (fun _ => none) ("a").data ("b").data (by decide) (by decide)⟩

/-- C2: any key whose value in the process environment differs after a
`fix_vars` run from its value before is either a member of the allow-list
or the allow-list is empty: records whose key is absent from a non-empty
allow-list are never applied. -/
theorem fix_vars_allowlist (windows macos : Bool) (vars : List String)
    (spawn : Except String CaptureResult) (env : Env) (k : String)
    (h : (fix_vars windows macos vars spawn env).env k ≠ env k) :
    vars = [] ∨ k ∈ vars := by
  cases windows with
  | true => simp [fix_vars] at h
  | false =>
    cases spawn with
    | error e => simp [fix_vars] at h
    | ok out =>
      by_cases hs : out.success = true
      · cases hf : extractFrame out.stdout.data with
        | none => simp [fix_vars, hs, hf] at h
        | some frame =>
          have he : (fix_vars false macos vars (.ok out) env).env
              = applyRecords vars (parseFrame frame) env := by
            simp [fix_vars, hs, hf]
          rw [he] at h
          exact applyRecords_ne_imp vars (parseFrame frame) env k h
      · simp [fix_vars, hs] at h

/-- Witness for `fix_vars_allowlist`: a run with allow-list `["A"]` that
changes `A`; the conclusion names `A` as a member of the allow-list. -/
theorem fix_vars_allowlist_witness :
    ((fix_vars false false ["A"]
        (.ok ⟨true, "_SHELL_ENV_DELIMITER_A=1_SHELL_ENV_DELIMITER_", ""⟩)
        (fun _ => none)).env "A" ≠ (fun _ => (none : Option String)) "A")
    ∧ (["A"] = [] ∨ "A" ∈ ["A"]) :=
  ⟨by decide,
    fix_vars_allowlist false false ["A"]
      (.ok ⟨true, "_SHELL_ENV_DELIMITER_A=1_SHELL_ENV_DELIMITER_", ""⟩)
      (fun _ => none) "A" (by decide)⟩

/-- C3: for the frame `"A=1\nA=2"` (two records with the same key, in
that line order) the merge stage leaves `A` bound to `"2"`: records are
applied in line order and the later occurrence wins, for any allow-list
that lets `A` through and any starting environment. -/
theorem fix_vars_last_write_wins (vars : List String) (env : Env)
    (h : shouldApply vars "A" = true) :
    applyRecords vars (parseFrame ("A=1\nA=2").data) env "A" = some "2" := by
  have hp : parseFrame ("A=1\nA=2").data = [("A", "1"), ("A", "2")] := by decide
  rw [hp]
  simp [applyRecords, applyRecord, setVar, h]

/-- Witness for `fix_vars_last_write_wins` with the empty allow-list and
the empty starting environment. -/
theorem fix_vars_last_write_wins_witness :
    shouldApply [] "A" = true
    ∧ applyRecords [] (parseFrame ("A=1\nA=2").data) (fun _ => none) "A" = some "2" :=
  ⟨by decide, fix_vars_last_write_wins [] (fun _ => none) (by decide)⟩

/-- C4: the raw output `"noiseDELIMfoo=barDELIMtrailing-noise"` parses to
exactly the one record `(foo, bar)`: the frame is the text strictly
between the first and second delimiter occurrences, and both the leading
and the trailing noise are ignored; run through the whole pipeline, only
`foo` is set. -/
theorem delimiter_boundary :
    extractFrame
        ("noise_SHELL_ENV_DELIMITER_foo=bar_SHELL_ENV_DELIMITER_trailing-noise").data
      = some ("foo=bar").data
    ∧ parseFrame ("foo=bar").data = [("foo", "bar")]
    ∧ (fix_vars false false []
        (.ok ⟨true, "noise_SHELL_ENV_DELIMITER_foo=bar_SHELL_ENV_DELIMITER_trailing-noise", ""⟩)
        (fun _ => none)).env "foo" = some "bar"
    ∧ (fix_vars false false []
        (.ok ⟨true, "noise_SHELL_ENV_DELIMITER_foo=bar_SHELL_ENV_DELIMITER_trailing-noise", ""⟩)
        (fun _ => none)).env "noise" = none := by
  refine ⟨by decide, by decide, by decide, by decide⟩

/-- C5: on Windows every entry point (`fix_vars`, `fix`, `fix_all_vars`)
returns success with the environment untouched, the `SHELL` variable
unread and no process spawned, whatever the allow-list, the spawn oracle
and the starting environment. -/
theorem windows_noop (macos : Bool) (vars : List String)
    (spawn : Except String CaptureResult) (env : Env) :
    fix_vars true macos vars spawn env
        = { result := .ok (), env := env, readShell := false, spawned := false }
    ∧ fix true macos spawn env
        = { result := .ok (), env := env, readShell := false, spawned := false }
    ∧ fix_all_vars true macos spawn env
        = { result := .ok (), env := env, readShell := false, spawned := false } :=
  ⟨rfl, rfl, rfl⟩

/-- C6: when the shell run completes with a non-success exit status, the
pipeline returns the Echo-Failed (shell-command-failure) error carrying
the captured stderr text, and the environment is unchanged. -/
theorem shell_failure (macos : Bool) (vars : List String)
    (so se : String) (env : Env) :
    fix_vars false macos vars (.ok ⟨false, so, se⟩) env
      = { result := .error (.EchoFailed se), env := env
          readShell := true, spawned := true } :=
  rfl

/-- C7: a non-empty line with no `=` character yields no record and does
not abort parsing — the records of the surrounding lines are exactly
preserved — and an empty line is likewise discarded. -/
theorem malformed_line_tolerance (bad : List Char) (pre post : List (List Char))
    (h1 : bad ≠ []) (h2 : '=' ∉ bad) :
    parseLine bad = none
    ∧ recordsOfLines (pre ++ bad :: post) = recordsOfLines (pre ++ post)
    ∧ recordsOfLines (pre ++ [] :: post) = recordsOfLines (pre ++ post) := by
  have hpl : parseLine bad = none := by
    rw [parseLine, splitFirstEq_eq_none bad h2]
    rfl
  refine ⟨hpl, ?_, ?_⟩
  · simp [recordsOfLines, List.filter_append, List.filter_cons,
      List.isEmpty_iff, h1, List.filterMap_append, hpl]
  · simp [recordsOfLines, List.filter_append, List.filter_cons]

/-- Witness for `malformed_line_tolerance`: the frame lines
`["a=1", "junk", "b=2"]` parse to the same records as `["a=1", "b=2"]`. -/
theorem malformed_line_tolerance_witness :
    (("junk").data ≠ [] ∧ '=' ∉ ("junk").data)
    ∧ (parseLine ("junk").data = none
      ∧ recordsOfLines [("a=1").data, ("junk").data, ("b=2").data]
          = recordsOfLines [("a=1").data, ("b=2").data]
      ∧ recordsOfLines [("a=1").data, [], ("b=2").data]
          = recordsOfLines [("a=1").data, ("b=2").data]) :=
  ⟨⟨by decide, by decide⟩,
    malformed_line_tolerance ("junk").data [("a=1").data] [("b=2").data]
      (by decide) (by decide)⟩

/-- C8: no partial success — every run either leaves the process
environment exactly as it was (all error outcomes, and the Windows
short-circuit), or returns success having merged the full parsed record
sequence of the frame in a single Filter-and-Merge pass; every failure
occurs before that pass begins. -/
theorem no_partial_success (windows macos : Bool) (vars : List String)
    (spawn : Except String CaptureResult) (env : Env) :
    (fix_vars windows macos vars spawn env).env = env
    ∨ ((fix_vars windows macos vars spawn env).result = .ok ()
      ∧ ∃ out frame, spawn = .ok out ∧ out.success = true
        ∧ extractFrame out.stdout.data = some frame
        ∧ (fix_vars windows macos vars spawn env).env
            = applyRecords vars (parseFrame frame) env) := by
  cases windows with
  | true => exact Or.inl rfl
  | false =>
    cases spawn with
    | error e => exact Or.inl (by simp [fix_vars])
    | ok out =>
      by_cases hs : out.success = true
      · cases hf : extractFrame out.stdout.data with
        | none => exact Or.inl (by simp [fix_vars, hs, hf])
        | some frame =>
          refine Or.inr ⟨by simp [fix_vars, hs, hf], out, frame, rfl, hs, hf, ?_⟩
          simp [fix_vars, hs, hf]
      · exact Or.inl (by simp [fix_vars, hs])

/-- C9: the Filter-and-Merge stage is idempotent: folding the same record
sequence with the same allow-list a second time over the result of the
first fold changes nothing. -/
theorem merge_idempotent (vars : List String) (recs : List (String × String))
    (env : Env) :
    applyRecords vars recs (applyRecords vars recs env) = applyRecords vars recs env := by
  funext k
  rw [applyRecords_apply vars recs (applyRecords vars recs env) k]
  cases h : lastVal vars recs k with
  | none => rfl
  | some v => rw [applyRecords_apply, h]

/-- C10: a line starting with `=` is not dropped: it parses to a record
whose key is the empty string, and with the empty allow-list the merge
stage reaches the set-variable branch with that empty name — the input
on which `std::env::set_var` panics (its documented precondition requires
a non-empty name). -/
theorem empty_key_reachable (rest : List Char) (env : Env) :
    parseLine ('=' :: rest) = some ("", String.mk rest)
    ∧ recordsOfLines [('=' :: rest)] = [("", String.mk rest)]
    ∧ shouldApply [] "" = true
    ∧ applyRecord [] env ("", String.mk rest) "" = some (String.mk rest) := by
  have hpl : parseLine ('=' :: rest) = some ("", String.mk rest) := by
    simp [parseLine, splitFirstEq]
  refine ⟨hpl, ?_, rfl, ?_⟩
  · simp [recordsOfLines, hpl]
  · simp [applyRecord, shouldApply, setVar]

end FixPathEnv
